import Mathlib

set_option maxRecDepth 100000

/- Verification development for the mzi assembly procedure (src/gdsfactory/components/mzi.py)
and the generic engine it relies on: the port model, the connection solver, the port
classifier and the factory cache.  The engine itself (gdsfactory.component, gdsfactory.cell,
gdsfactory.port) is not part of the sources, so those operations are modelled from the spec,
as marked on each definition.  Coordinates and lengths are rational numbers; angles are in
degrees.  The geometry of this repository uses only right-angle orientations, on which the
rotation action rotVec below is exact. -/

/-- Normalization of an angle in degrees to the interval from 0 inclusive to 360 exclusive. -/
def amod (a : ℚ) : ℚ := a - 360 * (⌊a / 360⌋ : ℚ)

/-- Rotation of a plane vector by an angle in degrees.  The repository's components only
carry orientations that are multiples of 90 degrees, and every rotation the connection
solver applies is such a multiple; on those the four cases below are the exact rotation.
On other angles this action is not used by any theorem in this file. -/
def rotVec (theta : ℚ) (p : ℚ × ℚ) : ℚ × ℚ :=
  if amod theta = 0 then p
  else if amod theta = 90 then (-p.2, p.1)
  else if amod theta = 180 then (-p.1, -p.2)
  else if amod theta = 270 then (p.2, -p.1)
  else p

/-- Modelled from the spec: a Port is an oriented connection point with a position in the
owning component's frame, an orientation angle in degrees, a width and a layer tag. -/
structure Port where
  x : ℚ
  y : ℚ
  angle : ℚ
  width : ℚ
  layer : ℤ × ℤ
deriving DecidableEq, Repr

/-- Which mzi sub-generator produced a placed instance: bookkeeping used to state the
arm-structure claims; the source distinguishes these factories at lines 100 to 103. -/
inductive Role where
  | splitterSeg
  | combinerSeg
  | bendSeg
  | verticalSeg
  | deltaSeg
  | horizontalSeg
deriving DecidableEq, Repr

/-- Modelled from the spec: the rigid transform of a Reference, a rotation in degrees
followed by a translation.  The mzi build never requests mirroring. -/
structure Transform where
  theta : ℚ
  dx : ℚ
  dy : ℚ
deriving DecidableEq, Repr

/-- Modelled from the spec: a leaf Component as the mzi build consumes it, a mapping of
integer port name to Port in insertion order, plus its optical path length (for a straight
this is its length parameter, for a bend its arc length). -/
structure MComp where
  ports : List (ℕ × Port)
  pathLen : ℚ
deriving DecidableEq, Repr

/-- Modelled from the spec: a Reference is a placed instance of a Component under a rigid
transform.  The name records which instance of the build it is. -/
structure MRef where
  name : String
  role : Role
  comp : MComp
  t : Transform
deriving DecidableEq, Repr

/-- Association-list lookup of a port by its integer name (a Python dict access). -/
def plook (k : ℕ) : List (ℕ × Port) → Option Port
  | [] => none
  | kp :: rest => if kp.1 = k then some kp.2 else plook k rest

/-- Modelled from the spec: a world port of a Reference, the referenced component's port
with the transform applied; position rotated and translated, orientation rotated. -/
def applyT (t : Transform) (p : Port) : Port :=
  { x := (rotVec t.theta (p.x, p.y)).1 + t.dx
    y := (rotVec t.theta (p.x, p.y)).2 + t.dy
    angle := amod (p.angle + t.theta)
    width := p.width
    layer := p.layer }

/-- All world ports of a reference, keyed as in the referenced component. -/
def worldPorts (r : MRef) : List (ℕ × Port) :=
  r.comp.ports.map (fun kp => (kp.1, applyT r.t kp.2))

/-- Error kinds of the assembly engine, as classified by the spec's section 7. -/
inductive MErr where
  | keyError (who : String) (key : ℕ)
  | widthError (who : String) (key : ℕ)
  | nameError (dup : String)
deriving DecidableEq, Repr

/-- Errors of the whole mzi build: an engine error, or the configuration-invariant
violation raised by the assert at source lines 95 to 98, carrying the offending
delta_length_combiner and length_y. -/
inductive BErr where
  | err (e : MErr)
  | configError (dlc : ℚ) (length_y : ℚ)
deriving DecidableEq, Repr

/-- World port lookup on a reference; an unresolvable key fails with a key error. -/
def wport (r : MRef) (k : ℕ) : Except MErr Port :=
  match plook k r.comp.ports with
  | none => .error (.keyError r.name k)
  | some p => .ok (applyT r.t p)

/-- Modelled from the spec: the connection solver.  It resolves the named port on the
reference, requires matching widths, computes the face-to-face rotation
(destination angle minus current world angle plus 180, mod 360) and recomputes the
reference's transform from current absolute positions so that the named port lands
exactly on the destination port. -/
def connect (r : MRef) (k : ℕ) (dest : Port) : Except MErr MRef :=
  match plook k r.comp.ports with
  | none => .error (.keyError r.name k)
  | some p =>
    if (applyT r.t p).width = dest.width then
      let theta := amod (r.t.theta + amod (dest.angle - (applyT r.t p).angle + 180))
      let v := rotVec theta (p.x, p.y)
      .ok { r with t := { theta := theta, dx := dest.x - v.1, dy := dest.y - v.2 } }
    else .error (.widthError r.name k)

/-- The identity transform. -/
def idT : Transform := { theta := 0, dx := 0, dy := 0 }

/-- A fresh reference with the identity transform. -/
def mkRef (n : String) (ro : Role) (c : MComp) : MRef :=
  { name := n, role := ro, comp := c, t := idT }

/-- Total order used by the deterministic port renaming: by orientation angle, then by the
position coordinates.  Modelled from the spec: ordering is derived purely from geometry. -/
def pleB (a b : Port) : Bool :=
  if a.angle = b.angle then
    if a.y = b.y then decide (a.x ≤ b.x) else decide (a.y < b.y)
  else decide (a.angle < b.angle)

/-- Insertion into a list sorted by pleB on the port values. -/
def insPort (x : String × Port) : List (String × Port) → List (String × Port)
  | [] => [x]
  | y :: ys => if pleB x.2 y.2 then x :: y :: ys else y :: insPort x ys

/-- Insertion sort of named ports by geometric position. -/
def sortPorts (l : List (String × Port)) : List (String × Port) :=
  l.foldr insPort []

/-- Sequential renaming of sorted ports, numbering each orientation class separately.
Modelled from the spec: canonical deterministic names derived from orientation and
geometric order, inputs and outputs distinguished by an orientation-class tag. -/
def renameGo : ℕ → ℕ → ℕ → ℕ → List (String × Port) → List (String × Port)
  | _, _, _, _, [] => []
  | e, n, w, s, xp :: rest =>
    if xp.2.angle = 0 then ( "E" ++ toString e, xp.2) :: renameGo (e + 1) n w s rest
    else if xp.2.angle = 90 then ( "N" ++ toString n, xp.2) :: renameGo e (n + 1) w s rest
    else if xp.2.angle = 180 then ( "W" ++ toString w, xp.2) :: renameGo e n (w + 1) s rest
    else ( "S" ++ toString s, xp.2) :: renameGo e n w (s + 1) rest

/-- Modelled from the spec: auto_rename_ports assigns canonical, deterministic names from
geometric order; the set of port values is preserved, only the names change. -/
def autoRenamePorts (l : List (String × Port)) : List (String × Port) :=
  renameGo 0 0 0 0 (sortPorts l)

/-- Adding one named port to a component surface; a duplicate name is a collision error. -/
def addPort (acc : List (String × Port)) (n : String) (p : Port) :
    Except MErr (List (String × Port)) :=
  if acc.any (fun q => q.1 == n) then .error (.nameError n) else .ok (acc ++ [(n, p)])

/-- Adding a batch of named ports in order, failing on the first collision. -/
def addPorts (acc : List (String × Port)) : List (String × Port) →
    Except MErr (List (String × Port))
  | [] => .ok acc
  | x :: xs => do
    let acc2 ← addPort acc x.1 x.2
    addPorts acc2 xs

/-- Normalized parameter mappings of a factory call: option name to numeric value. -/
abbrev Params := List (String × ℚ)

/-- Insertion into a parameter list sorted by option name. -/
def insParam (p : String × ℚ) : Params → Params
  | [] => [p]
  | q :: qs => if compare q.1 p.1 = Ordering.lt then q :: insParam p qs else p :: q :: qs

/-- Modelled from the spec: canonicalization of a parameter mapping by stable key ordering. -/
def canon (ps : Params) : Params := ps.foldr insParam []

/-- One published entry of the factory cache: factory identity, canonical key, component. -/
structure CEntry where
  fid : ℕ
  key : Params
  comp : MComp
deriving DecidableEq, Repr

/-- The process-wide factory cache, an arena of published components.  Object identity of
a published component is modelled by its index in this arena: two calls return the
identical object exactly when they return the same index. -/
abbrev Cache := List CEntry

/-- Index of the first cache entry with the given factory identity and canonical key. -/
def cacheFind (fid : ℕ) (key : Params) : Cache → Option ℕ
  | [] => none
  | e :: s =>
    if e.fid = fid ∧ e.key = key then some 0 else (cacheFind fid key s).map (· + 1)

/-- Modelled from the spec: the factory cache contract.  On a hit the previously published
component (its arena index, standing for object identity) is returned and the state is
unchanged; on a miss the factory is invoked, the result is published under the canonical
key at a fresh index. -/
def get_or_build (fid : ℕ) (build : Params → MComp) (ps : Params) (s : Cache) : ℕ × Cache :=
  let key := canon ps
  match cacheFind fid key s with
  | some i => (i, s)
  | none => (s.length, s ++ [{ fid := fid, key := key, comp := build ps }])

/-- Source line 64: a missing combiner argument falls back to the splitter factory. -/
def mziResolveCombiner (splitterFid : ℕ) (combinerFid : Option ℕ) : ℕ :=
  combinerFid.getD splitterFid

/-- Source lines 64 and 74 to 75: the mzi build acquires cp1 from the splitter factory
with splitter_settings and cp2 from the resolved combiner factory with combiner_settings,
both through the factory cache, sharing the extra kwargs.  Returns the two arena indices
and the final cache state. -/
def mziGetCouplers (splitterFid : ℕ) (combinerFid : Option ℕ) (build : ℕ → Params → MComp)
    (splitter_settings combiner_settings kwargs : Params) (s : Cache) : ℕ × ℕ × Cache :=
  let cfid := mziResolveCombiner splitterFid combinerFid
  let r1 := get_or_build splitterFid (build splitterFid) (splitter_settings ++ kwargs) s
  let r2 := get_or_build cfid (build cfid) (combiner_settings ++ kwargs) r1.2
  (r1.1, r2.1, r2.2)

/-- Modelled from the spec: the bend factory (bend_euler, absent from the sources); a 90
degree bend with an entry port and an exit port a quarter turn apart, of fixed arc length. -/
def bendC : MComp :=
  { ports := [(1, { x := 0, y := 0, angle := 180, width := 1/2, layer := (1, 0) }),
              (2, { x := 10, y := 10, angle := 90, width := 1/2, layer := (1, 0) })],
    pathLen := 157/10 }

/-- Modelled from the spec: the straight factory (absent from the sources); two ports
facing outward at the two ends, path length equal to the length parameter. -/
def straightC (length : ℚ) : MComp :=
  { ports := [(1, { x := 0, y := 0, angle := 180, width := 1/2, layer := (1, 0) }),
              (2, { x := length, y := 0, angle := 0, width := 1/2, layer := (1, 0) })],
    pathLen := length }

/-- Modelled from the spec: the default splitter mmi1x2 (absent from the sources); one
west-facing input port and two east-facing output ports at differing vertical offsets. -/
def mmi1x2C : MComp :=
  { ports := [(1, { x := 0, y := 0, angle := 180, width := 1/2, layer := (1, 0) }),
              (2, { x := 11/2, y := 5/8, angle := 0, width := 1/2, layer := (1, 0) }),
              (3, { x := 11/2, y := -5/8, angle := 0, width := 1/2, layer := (1, 0) })],
    pathLen := 0 }

/-- Source line 87: the second of the two chosen port keys, len(cp1.ports) - 1. -/
def e1Key (cp1 : MComp) : ℕ := cp1.ports.length - 1

/-- Source line 88: the key of the remaining port, len(cp1.ports). -/
def e0Key (cp1 : MComp) : ℕ := cp1.ports.length

/-- Source line 100: the length requested for the combiner-side vertical straight. -/
def l0rLength (length_y dlc : ℚ) : ℚ := length_y + dlc / 2

/-- The result of a successful mzi build: the exposed ports after classification and
renaming, the names of the added child references, the two arms as chained (the order the
references are connected in, source lines 117 to 147), the splitter and combiner
references and the individually named references the claims speak about, plus the
computed delta_length_combiner and the requested combiner-side straight length. -/
structure MziResult where
  ports : List (String × Port)
  refNames : List String
  topChain : List MRef
  botChain : List MRef
  cin : MRef
  cout : MRef
  blt : MRef
  blb : MRef
  blbmrb : MRef
  dlc : ℚ
  l0rLen : ℚ
deriving DecidableEq, Repr

/-- The west-side exposed ports, source lines 151 to 158: with the splitter, its
left-facing (180 degree) world ports under their own names; without it, the two arms'
bend-entry world ports under the names 2 and 1. -/
def westSel (ws : Bool) (cin blt blb : MRef) : Except MErr (List (String × Port)) :=
  if ws then
    addPorts [] ((worldPorts cin).filterMap
      (fun kp => if kp.2.angle = 180 then some (toString kp.1, kp.2) else none))
  else do
    let pa ← wport blt 1
    let pb ← wport blb 2
    addPorts [] [( "2", pa), ( "1", pb)]

/-- The assembly stage of the mzi build, source lines 100 to 193: everything after the
arm-balance assert.  A direct transcription of the connect chain of both arms, the west
and east port classification, the non-optical port re-export and the renaming. -/
def mziAssemble (delta_length length_y length_x : ℚ) (cp1 cp2 : MComp)
    (with_splitter : Bool) (layer : ℤ × ℤ) (dlc : ℚ) : Except MErr MziResult := do
  let b90 := bendC
  let l0 := straightC length_y
  let l0r := straightC (l0rLength length_y dlc)
  let l1 := straightC (delta_length / 2)
  let lxt := straightC length_x
  let lxb := straightC length_x
  let cin := mkRef "cin" .splitterSeg cp1
  let cout0 := mkRef "cout" .combinerSeg cp2
  let e1 := e1Key cp1
  let e0 := e0Key cp1
  let d1 ← wport cin e1
  let blt ← connect (mkRef "blt" .bendSeg b90) 1 d1
  let d2 ← wport blt 2
  let l0tl ← connect (mkRef "l0tl" .verticalSeg l0) 1 d2
  let d3 ← wport l0tl 2
  let bltl ← connect (mkRef "bltl" .bendSeg b90) 2 d3
  let d4 ← wport bltl 1
  let lxtop ← connect (mkRef "lxtop" .horizontalSeg lxt) 1 d4
  let d5 ← wport lxtop lxtop.comp.ports.length
  let bltr ← connect (mkRef "bltr" .bendSeg b90) 2 d5
  let d6 ← wport bltr 1
  let l0tr ← connect (mkRef "l0tr" .verticalSeg l0r) 1 d6
  let d7 ← wport l0tr 2
  let blmr ← connect (mkRef "blmr" .bendSeg b90) 1 d7
  let d8 ← wport blmr 2
  let cout ← connect cout0 e0 d8
  let f1 ← wport cin e0
  let blb ← connect (mkRef "blb" .bendSeg b90) 2 f1
  let f2 ← wport blb 1
  let l0bl ← connect (mkRef "l0bl" .verticalSeg l0) 1 f2
  let f3 ← wport l0bl 2
  let l1l ← connect (mkRef "l1l" .deltaSeg l1) 1 f3
  let f4 ← wport l1l 2
  let blbl ← connect (mkRef "blbl" .bendSeg b90) 1 f4
  let f5 ← wport blbl 2
  let lxbot ← connect (mkRef "lxbot" .horizontalSeg lxb) 1 f5
  let f6 ← wport lxbot lxbot.comp.ports.length
  let brbr ← connect (mkRef "brbr" .bendSeg b90) 1 f6
  let f7 ← wport brbr 2
  let l1r ← connect (mkRef "l1r" .deltaSeg l1) 1 f7
  let f8 ← wport l1r 2
  let l0br ← connect (mkRef "l0br" .verticalSeg l0r) 1 f8
  let f9 ← wport l0br 2
  let blbmrb0 ← connect (mkRef "blbmrb" .bendSeg b90) 2 f9
  let f10 ← wport cout e1
  let blbmrb ← connect blbmrb0 1 f10
  let refNames := [ "cout", "blt", "bltl", "bltr", "blmr", "l0tl", "lxtop", "l0tr",
    "blb", "l0bl", "l1l", "blbl", "lxbot", "brbr", "l1r", "l0br", "blbmrb"]
    ++ (if with_splitter then [ "cin"] else [])
  let westPairs ← westSel with_splitter cin blt blb
  let eastPairs := (worldPorts cout).enum.filterMap
    (fun ikp => if ikp.2.2.angle = 0 then some ( "E" ++ toString ikp.1, ikp.2.2) else none)
  let ports1 ← addPorts westPairs eastPairs
  let dcTop := (worldPorts lxtop).filterMap
    (fun kp => if kp.2.layer ≠ layer then some ( "DC_top" ++ toString kp.1, kp.2) else none)
  let dcBot := (worldPorts lxbot).filterMap
    (fun kp => if kp.2.layer ≠ layer then some ( "DC_bot" ++ toString kp.1, kp.2) else none)
  let ports2 ← addPorts ports1 (dcTop ++ dcBot)
  let finalPorts := autoRenamePorts (autoRenamePorts ports2)
  pure { ports := finalPorts, refNames := refNames,
         topChain := [blt, l0tl, bltl, lxtop, bltr, l0tr, blmr],
         botChain := [blb, l0bl, l1l, blbl, lxbot, brbr, l1r, l0br, blbmrb],
         cin := cin, cout := cout, blt := blt, blb := blb, blbmrb := blbmrb,
         dlc := dlc, l0rLen := l0rLength length_y dlc }

/-- Port lookup for the offset stage, lifting a missing key to the build error type. -/
def plookE (who : String) (k : ℕ) (c : MComp) : Except BErr Port :=
  match plook k c.ports with
  | some p => .ok p
  | none => .error (.err (.keyError who k))

/-- The mzi build, source lines 64 to 194, over already-acquired splitter and combiner
components: read the two chosen ports of each (keys 2 and len(cp1.ports) - 1), compute
the vertical offsets dl and dr and delta_length_combiner = dl - dr, enforce the
arm-balance invariant delta_length_combiner + length_y > 0, then run the assembly. -/
def mziModel (delta_length length_y length_x : ℚ) (cp1 cp2 : MComp)
    (with_splitter : Bool) (layer : ℤ × ℤ) : Except BErr MziResult := do
  let y1l ← plookE "cp1" 2 cp1
  let y1r ← plookE "cp2" 2 cp2
  let y2l ← plookE "cp1" (e1Key cp1) cp1
  let y2r ← plookE "cp2" (e1Key cp1) cp2
  let dl := |y2l.y - y1l.y|
  let dr := |y2r.y - y1r.y|
  let dlc := dl - dr
  if 0 < dlc + length_y then
    (mziAssemble delta_length length_y length_x cp1 cp2 with_splitter layer dlc).mapError .err
  else
    .error (.configError dlc length_y)

/-- The end-to-end default build: delta_length 10, length_y 0.1, length_x 0.1, the default
splitter also used as the combiner, with the splitter included. -/
def mziDefault : Except BErr MziResult :=
  mziModel 10 (1/10) (1/10) mmi1x2C mmi1x2C true (1, 0)

/-- The same build with with_splitter = false. -/
def mziNoSplit : Except BErr MziResult :=
  mziModel 10 (1/10) (1/10) mmi1x2C mmi1x2C false (1, 0)

/-- The successful result of an mzi build, when there is one. -/
def okRes (e : Except BErr MziResult) : Option MziResult := e.toOption

/-- The role and path-length view of a chain of placed references. -/
def segView (l : List MRef) : List (Role × ℚ) :=
  l.map (fun r => (r.role, r.comp.pathLen))

/-- Total optical path length of a chain of placed references. -/
def chainSum (l : List MRef) : ℚ :=
  (l.map (fun r => r.comp.pathLen)).sum

/-- The transform the connection solver assigns: it depends only on the component-local
port and the destination port, never on the reference's previous transform. -/
def connTf (p dest : Port) : Transform :=
  { theta := amod (dest.angle - p.angle + 180)
    dx := dest.x - (rotVec (amod (dest.angle - p.angle + 180)) (p.x, p.y)).1
    dy := dest.y - (rotVec (amod (dest.angle - p.angle + 180)) (p.x, p.y)).2 }

/-- A world port with a default for the error case, for stating concrete facts. -/
def wpOr (r : MRef) (k : ℕ) : Port :=
  match wport r k with
  | .ok p => p
  | .error _ => { x := 0, y := 0, angle := 0, width := 0, layer := (0, 0) }

/-- The successfully connected reference, with a default for the error case. -/
def connOk (r : MRef) (k : ℕ) (d : Port) : MRef :=
  match connect r k d with
  | .ok s => s
  | .error _ => r

/-- The result record of the default build (total by construction; the default build
succeeds, as the theorems below establish). -/
def mziDefaultRes : MziResult :=
  match mziDefault with
  | .ok r => r
  | .error _ =>
    { ports := [], refNames := [], topChain := [], botChain := [],
      cin := mkRef "cin" .splitterSeg mmi1x2C, cout := mkRef "cout" .combinerSeg mmi1x2C,
      blt := mkRef "blt" .bendSeg bendC, blb := mkRef "blb" .bendSeg bendC,
      blbmrb := mkRef "blbmrb" .bendSeg bendC, dlc := 0, l0rLen := 0 }

/-- A four-port splitter whose two chosen ports (keys 2 and 3) are offset by 2. -/
def cpA1 : MComp :=
  { ports := [(1, { x := 0, y := 0, angle := 180, width := 1/2, layer := (1, 0) }),
              (2, { x := 5, y := 0, angle := 0, width := 1/2, layer := (1, 0) }),
              (3, { x := 5, y := 2, angle := 0, width := 1/2, layer := (1, 0) }),
              (4, { x := 5, y := -1, angle := 0, width := 1/2, layer := (1, 0) })],
    pathLen := 0 }

/-- A four-port combiner whose two chosen ports coincide vertically. -/
def cpA2 : MComp :=
  { ports := [(1, { x := 0, y := 0, angle := 180, width := 1/2, layer := (1, 0) }),
              (2, { x := 5, y := 1, angle := 0, width := 1/2, layer := (1, 0) }),
              (3, { x := 5, y := 1, angle := 0, width := 1/2, layer := (1, 0) }),
              (4, { x := 5, y := -1, angle := 0, width := 1/2, layer := (1, 0) })],
    pathLen := 0 }

/-- A four-port splitter with equal chosen-port heights (dl = 0). -/
def cpB1 : MComp :=
  { ports := [(1, { x := 0, y := 0, angle := 180, width := 1/2, layer := (1, 0) }),
              (2, { x := 5, y := 1, angle := 0, width := 1/2, layer := (1, 0) }),
              (3, { x := 5, y := 1, angle := 0, width := 1/2, layer := (1, 0) }),
              (4, { x := 5, y := -1, angle := 0, width := 1/2, layer := (1, 0) })],
    pathLen := 0 }

/-- A three-port combiner: it lacks the splitter-derived key 4 and its chosen ports are
offset by 2, so the arm-balance check fails before the missing key is ever read. -/
def cpB2 : MComp :=
  { ports := [(1, { x := 0, y := 0, angle := 180, width := 1/2, layer := (1, 0) }),
              (2, { x := 5, y := 0, angle := 0, width := 1/2, layer := (1, 0) }),
              (3, { x := 5, y := 2, angle := 0, width := 1/2, layer := (1, 0) })],
    pathLen := 0 }

/-- A free-standing placed reference used to exercise the connection solver. -/
def wRef : MRef :=
  { name := "w", role := .bendSeg, comp := bendC, t := { theta := 90, dx := 3, dy := 4 } }

/-- The component-local entry port of the bend (its port 1). -/
def wPort1 : Port := { x := 0, y := 0, angle := 180, width := 1/2, layer := (1, 0) }

/-- A first concrete destination port. -/
def wDest1 : Port := { x := 7, y := -2, angle := 270, width := 1/2, layer := (1, 0) }

/-- A second concrete destination port. -/
def wDest2 : Port := { x := -3, y := 5, angle := 0, width := 1/2, layer := (1, 0) }

/-- Decidable equality of build results, so concrete builds can be checked by evaluation. -/
instance exceptDecEq {E A : Type} [DecidableEq E] [DecidableEq A] : DecidableEq (Except E A) :=
  fun a b =>
    match a, b with
    | .error x, .error y =>
      if h : x = y then .isTrue (by rw [h]) else .isFalse (fun hc => h (Except.error.inj hc))
    | .error _, .ok _ => .isFalse (fun hc => Except.noConfusion hc)
    | .ok _, .error _ => .isFalse (fun hc => Except.noConfusion hc)
    | .ok u, .ok v =>
      if h : u = v then .isTrue (by rw [h]) else .isFalse (fun hc => h (Except.ok.inj hc))

/-- Adding an integer multiple of 360 does not change the normalized angle. -/
theorem amod_add_int (a : ℚ) (k : ℤ) : amod (a + 360 * (k : ℚ)) = amod a := by
  unfold amod
  have h : (a + 360 * (k : ℚ)) / 360 = a / 360 + (k : ℚ) := by ring
  rw [h, Int.floor_add_int]
  push_cast
  ring_nf

/-- The normalization can be dropped from the right summand. -/
theorem amod_add_amod_right (a b : ℚ) : amod (a + amod b) = amod (a + b) := by
  have h : a + amod b = a + b + 360 * ((-⌊b / 360⌋ : ℤ) : ℚ) := by
    unfold amod; push_cast; ring
  rw [h, amod_add_int]

/-- The normalization can be dropped from the subtrahend. -/
theorem amod_sub_amod_right (a b : ℚ) : amod (a - amod b) = amod (a - b) := by
  have h : a - amod b = a - b + 360 * ((⌊b / 360⌋ : ℤ) : ℚ) := by
    unfold amod; ring
  rw [h, amod_add_int]

/-- The rotation the solver accumulates is independent of the previous rotation: starting
from any current rotation rt, the face-to-face update lands on the same absolute angle. -/
theorem amod_theta_indep (rt pa da : ℚ) :
    amod (rt + amod (da - amod (pa + rt) + 180)) = amod (da - pa + 180) := by
  have e1 : da - amod (pa + rt) + 180 = (da + 180) - amod (pa + rt) := by ring
  rw [e1, amod_sub_amod_right]
  rw [amod_add_amod_right]
  have e2 : rt + (da + 180 - (pa + rt)) = da - pa + 180 := by ring
  rw [e2]

/-- A successful connect in closed form: the resulting transform is connTf of the
component-local port and the destination, independent of the previous transform. -/
theorem connect_ok_spec (r : MRef) (k : ℕ) (dest p : Port)
    (hp : plook k r.comp.ports = some p) (hw : p.width = dest.width) :
    connect r k dest =
      .ok { name := r.name, role := r.role, comp := r.comp, t := connTf p dest } := by
  unfold connect
  simp only [hp]
  rw [if_pos (show (applyT r.t p).width = dest.width from hw)]
  simp only [applyT]
  rw [amod_theta_indep]
  rfl

/-- A connect on an unresolvable key is the corresponding key error. -/
theorem connect_none_spec (r : MRef) (k : ℕ) (dest : Port)
    (hp : plook k r.comp.ports = none) :
    connect r k dest = .error (.keyError r.name k) := by
  unfold connect
  simp only [hp]

/-- A connect with mismatched widths is the geometry-mismatch error. -/
theorem connect_width_spec (r : MRef) (k : ℕ) (dest p : Port)
    (hp : plook k r.comp.ports = some p) (hw : ¬ p.width = dest.width) :
    connect r k dest = .error (.widthError r.name k) := by
  unfold connect
  simp only [hp]
  rw [if_neg (show ¬ (applyT r.t p).width = dest.width from hw)]

/-- Inversion of a successful connect. -/
theorem connect_ok_inv {r : MRef} {k : ℕ} {dest : Port} {s : MRef}
    (h : connect r k dest = .ok s) :
    ∃ p, plook k r.comp.ports = some p ∧ p.width = dest.width ∧
      s = { name := r.name, role := r.role, comp := r.comp, t := connTf p dest } := by
  cases hp : plook k r.comp.ports with
  | none =>
    rw [connect_none_spec r k dest hp] at h
    exact Except.noConfusion h
  | some p =>
    by_cases hw : p.width = dest.width
    · rw [connect_ok_spec r k dest p hp hw] at h
      refine ⟨p, rfl, hw, ?_⟩
      injection h with h2
      exact h2.symm
    · rw [connect_width_spec r k dest p hp hw] at h
      exact Except.noConfusion h

/-- A successful connect changes only the transform. -/
theorem connect_fields {r : MRef} {k : ℕ} {dest : Port} {s : MRef}
    (h : connect r k dest = .ok s) :
    s.comp = r.comp ∧ s.role = r.role ∧ s.name = r.name := by
  obtain ⟨p, _, _, hs⟩ := connect_ok_inv h
  rw [hs]
  exact ⟨rfl, rfl, rfl⟩

/-- A successful connect requires the key to resolve on the component. -/
theorem connect_ok_look {r : MRef} {k : ℕ} {dest : Port} {s : MRef}
    (h : connect r k dest = .ok s) : plook k r.comp.ports ≠ none := by
  obtain ⟨p, hp, _, _⟩ := connect_ok_inv h
  rw [hp]
  exact fun hc => Option.noConfusion hc

/-- A successful world-port lookup requires the key to resolve on the component. -/
theorem wport_ok_look {r : MRef} {k : ℕ} {q : Port}
    (h : wport r k = .ok q) : plook k r.comp.ports ≠ none := by
  unfold wport at h
  cases hp : plook k r.comp.ports with
  | none => simp only [hp] at h; exact Except.noConfusion h
  | some p => exact fun hc => Option.noConfusion hc

/-- The connection solver depends only on the reference's component (and name and role,
which it copies), never on its current transform. -/
theorem connect_indep (r r2 : MRef) (k : ℕ) (dest : Port)
    (hc : r.comp = r2.comp) (hn : r.name = r2.name) (hr : r.role = r2.role) :
    connect r k dest = connect r2 k dest := by
  cases hp : plook k r.comp.ports with
  | none =>
    have hp2 : plook k r2.comp.ports = none := hc ▸ hp
    rw [connect_none_spec r k dest hp, connect_none_spec r2 k dest hp2, hn]
  | some p =>
    have hp2 : plook k r2.comp.ports = some p := hc ▸ hp
    by_cases hw : p.width = dest.width
    · rw [connect_ok_spec r k dest p hp hw, connect_ok_spec r2 k dest p hp2 hw, hn, hr, hc]
    · rw [connect_width_spec r k dest p hp hw, connect_width_spec r2 k dest p hp2 hw, hn]

/-- The connection solver is idempotent: reconnecting the already-placed reference to the
same destination leaves it unchanged. -/
theorem connect_idem {r : MRef} {k : ℕ} {dest : Port} {s : MRef}
    (h : connect r k dest = .ok s) : connect s k dest = .ok s := by
  obtain ⟨p, hp, hw, hs⟩ := connect_ok_inv h
  have hps : plook k s.comp.ports = some p := by rw [hs]; exact hp
  rw [connect_ok_spec s k dest p hps hw, hs]

/-- Sequencing in the Except monad succeeds exactly when both stages do. -/
theorem exbind_ok {E A B : Type} {e : Except E A} {f : A → Except E B} {b : B} :
    (e >>= f) = .ok b ↔ ∃ a, e = .ok a ∧ f a = .ok b := by
  change Except.bind e f = .ok b ↔ _
  cases e with
  | error x => simp [Except.bind]
  | ok a => simp [Except.bind]

/-- Sequencing in the Except monad fails exactly when either stage does. -/
theorem exbind_error {E A B : Type} {e : Except E A} {f : A → Except E B} {c : E} :
    (e >>= f) = .error c ↔ e = .error c ∨ ∃ a, e = .ok a ∧ f a = .error c := by
  change Except.bind e f = .error c ↔ _
  cases e with
  | error x => simp [Except.bind]
  | ok a => simp [Except.bind]

/-- A pure value in the Except monad. -/
theorem expure_eq {E B : Type} (b : B) : (pure b : Except E B) = .ok b := rfl

/-- Mapping the error of a computation preserves success. -/
theorem exmap_ok {E F A : Type} {g : E → F} {e : Except E A} {a : A} :
    e.mapError g = .ok a ↔ e = .ok a := by
  cases e with
  | error x => simp [Except.mapError]
  | ok b => simp [Except.mapError]

/-- Mapping the error of a computation maps its failure. -/
theorem exmap_error {E F A : Type} {g : E → F} {e : Except E A} {c : F} :
    e.mapError g = .error c ↔ ∃ x, e = .error x ∧ c = g x := by
  cases e with
  | error x => simp [Except.mapError, eq_comm]
  | ok b => simp [Except.mapError]

/-- A resolved lookup in the offset stage. -/
theorem plookE_ok {who : String} {k : ℕ} {c : MComp} {p : Port} :
    plookE who k c = .ok p ↔ plook k c.ports = some p := by
  unfold plookE
  cases hp : plook k c.ports with
  | none => simp
  | some q => simp

/-- An unresolved lookup in the offset stage. -/
theorem plookE_none {who : String} {k : ℕ} {c : MComp} (hp : plook k c.ports = none) :
    plookE who k c = .error (.err (.keyError who k)) := by
  unfold plookE
  simp only [hp]

/-- A found cache index is within the arena. -/
theorem cacheFind_some_lt {fid : ℕ} {key : Params} {s : Cache} {i : ℕ}
    (h : cacheFind fid key s = some i) : i < s.length := by
  induction s generalizing i with
  | nil => cases h
  | cons e tl ih =>
    unfold cacheFind at h
    by_cases he : e.fid = fid ∧ e.key = key
    · rw [if_pos he] at h
      injection h with h2
      rw [← h2]
      exact Nat.succ_pos _
    · rw [if_neg he] at h
      cases hf : cacheFind fid key tl with
      | none => rw [hf] at h; simp at h
      | some j =>
        rw [hf] at h
        have h2 : j + 1 = i := by simpa using h
        rw [← h2]
        exact Nat.succ_lt_succ (ih hf)

/-- The entry at a found cache index carries the searched factory identity and key. -/
theorem cacheFind_some_get {fid : ℕ} {key : Params} {s : Cache} {i : ℕ}
    (h : cacheFind fid key s = some i) :
    ∃ e, s.get? i = some e ∧ e.fid = fid ∧ e.key = key := by
  induction s generalizing i with
  | nil => cases h
  | cons e tl ih =>
    unfold cacheFind at h
    by_cases he : e.fid = fid ∧ e.key = key
    · rw [if_pos he] at h
      injection h with h2
      exact ⟨e, by rw [← h2]; rfl, he.1, he.2⟩
    · rw [if_neg he] at h
      cases hf : cacheFind fid key tl with
      | none => rw [hf] at h; simp at h
      | some j =>
        rw [hf] at h
        have h2 : j + 1 = i := by simpa using h
        obtain ⟨e2, hg, h1, h2k⟩ := ih hf
        exact ⟨e2, by rw [← h2]; exact hg, h1, h2k⟩

/-- Publishing a fresh entry makes it findable at the fresh index. -/
theorem cacheFind_append {fid : ℕ} {key : Params} {s : Cache} {c : MComp}
    (h : cacheFind fid key s = none) :
    cacheFind fid key (s ++ [{ fid := fid, key := key, comp := c }]) = some s.length := by
  induction s with
  | nil => unfold cacheFind; simp
  | cons e tl ih =>
    unfold cacheFind at h
    by_cases he : e.fid = fid ∧ e.key = key
    · rw [if_pos he] at h; cases h
    · rw [if_neg he] at h
      have hf : cacheFind fid key tl = none := by
        cases hf2 : cacheFind fid key tl with
        | none => rfl
        | some j => rw [hf2] at h; simp at h
      rw [List.cons_append]
      unfold cacheFind
      rw [if_neg he, ih hf]
      simp

/-- After one call of the cache, the canonical key is findable at the returned index. -/
theorem gob_found (fid : ℕ) (build : Params → MComp) (P : Params) (s : Cache) :
    cacheFind fid (canon P) (get_or_build fid build P s).2
      = some (get_or_build fid build P s).1 := by
  unfold get_or_build
  cases hf : cacheFind fid (canon P) s with
  | none => simp only [hf]; exact cacheFind_append hf
  | some i => simp only [hf]

/-- A repeated cache call with the same parameters returns the same arena index. -/
theorem gob_stable (fid : ℕ) (build : Params → MComp) (P : Params) (s : Cache) :
    (get_or_build fid build P (get_or_build fid build P s).2).1
      = (get_or_build fid build P s).1 := by
  have h := gob_found fid build P s
  conv_lhs => rw [get_or_build]
  rw [h]

/-- C4: for every factory and parameter set, a second cache call with the same parameters
returns the identical underlying Component (the same arena index, i.e. object identity),
and a call with any parameter set of a different canonical key returns a distinct one. -/
theorem cache_identity (fid : ℕ) (build : Params → MComp) (P : Params) (s : Cache) :
    (get_or_build fid build P (get_or_build fid build P s).2).1
        = (get_or_build fid build P s).1
  ∧ ∀ P2, canon P2 ≠ canon P →
      (get_or_build fid build P2 (get_or_build fid build P s).2).1
        ≠ (get_or_build fid build P s).1 := by
  constructor
  · exact gob_stable fid build P s
  · intro P2 hne
    have hfound := gob_found fid build P s
    set i1 := (get_or_build fid build P s).1 with hi1
    set s1 := (get_or_build fid build P s).2 with hs1
    cases hf2 : cacheFind fid (canon P2) s1 with
    | none =>
      have hv : (get_or_build fid build P2 s1).1 = s1.length := by
        simp only [get_or_build, hf2]
      rw [hv]
      have hlt := cacheFind_some_lt hfound
      omega
    | some j =>
      have hv : (get_or_build fid build P2 s1).1 = j := by
        simp only [get_or_build, hf2]
      rw [hv]
      intro hEq
      obtain ⟨e2, hg2, _, hf2key⟩ := cacheFind_some_get hf2
      obtain ⟨e1, hg1, _, hf1key⟩ := cacheFind_some_get hfound
      rw [hEq, hg1] at hg2
      injection hg2 with he
      apply hne
      rw [← hf2key, ← he]
      exact hf1key

/-- C4 witness: two same-key calls agree and a one-field change gives a fresh index. -/
theorem cache_identity_witness :
    (get_or_build 0 (fun _ => mmi1x2C) [( "dl", 10)]
        ((get_or_build 0 (fun _ => mmi1x2C) [( "dl", 10)] []).2)).1
      = (get_or_build 0 (fun _ => mmi1x2C) [( "dl", 10)] []).1
  ∧ (get_or_build 0 (fun _ => mmi1x2C) [( "dl", 11)]
        ((get_or_build 0 (fun _ => mmi1x2C) [( "dl", 10)] []).2)).1
      ≠ (get_or_build 0 (fun _ => mmi1x2C) [( "dl", 10)] []).1 :=
  ⟨(cache_identity 0 (fun _ => mmi1x2C) [( "dl", 10)] []).1,
   (cache_identity 0 (fun _ => mmi1x2C) [( "dl", 10)] []).2 [( "dl", 11)]
     (by with_unfolding_all decide)⟩

/-- C10: when the combiner argument is omitted, the mzi build resolves the combiner to the
splitter factory, invoked with combiner_settings; with default (empty) settings the
splitter and combiner are the identical cached Component (the same arena index). -/
theorem mzi_default_combiner (sf : ℕ) (build : ℕ → Params → MComp) (kwargs : Params)
    (s : Cache) :
    mziResolveCombiner sf none = sf
  ∧ (mziGetCouplers sf none build [] [] kwargs s).2.1
      = (mziGetCouplers sf none build [] [] kwargs s).1 := by
  refine ⟨rfl, ?_⟩
  show (get_or_build sf (build sf) ([] ++ kwargs)
      ((get_or_build sf (build sf) ([] ++ kwargs) s).2)).1
    = (get_or_build sf (build sf) ([] ++ kwargs) s).1
  exact gob_stable sf (build sf) ([] ++ kwargs) s

/-- C5: for any placed reference and destination port (with matching widths, as the spec
requires), connect applies the rotation destination angle minus current world angle plus
180 mod 360, and afterwards the moved port's world position equals the destination's
position exactly and its world orientation equals destination angle plus 180, mod 360. -/
theorem connect_correctness (r : MRef) (k : ℕ) (dest p : Port)
    (hp : plook k r.comp.ports = some p) (hw : p.width = dest.width) :
    ∃ s, connect r k dest = .ok s
      ∧ s.t.theta = amod (r.t.theta + amod (dest.angle - (applyT r.t p).angle + 180))
      ∧ wport s k = .ok { x := dest.x, y := dest.y, angle := amod (dest.angle + 180),
                          width := p.width, layer := p.layer } := by
  refine ⟨_, connect_ok_spec r k dest p hp hw, ?_, ?_⟩
  · show amod (dest.angle - p.angle + 180)
        = amod (r.t.theta + amod (dest.angle - amod (p.angle + r.t.theta) + 180))
    exact (amod_theta_indep r.t.theta p.angle dest.angle).symm
  · have hport : applyT (connTf p dest) p
        = { x := dest.x, y := dest.y, angle := amod (dest.angle + 180),
            width := p.width, layer := p.layer } := by
      unfold applyT connTf
      simp only [Port.mk.injEq]
      refine ⟨by ring, by ring, ?_, trivial, trivial⟩
      rw [amod_add_amod_right]
      have e : p.angle + (dest.angle - p.angle + 180) = dest.angle + 180 := by ring
      rw [e]
    unfold wport
    simp only [hp]
    rw [hport]

/-- C5 witness: the correctness property at a concrete placed bend and destination. -/
theorem connect_correctness_witness :
    ∃ s, connect wRef 1 wDest1 = .ok s
      ∧ s.t.theta = amod (wRef.t.theta + amod (wDest1.angle - (applyT wRef.t wPort1).angle + 180))
      ∧ wport s 1 = .ok { x := wDest1.x, y := wDest1.y, angle := amod (wDest1.angle + 180),
                          width := wPort1.width, layer := wPort1.layer } :=
  connect_correctness wRef 1 wDest1 wPort1 (by with_unfolding_all decide)
    (by with_unfolding_all decide)

/-- C7: a second connect of the same Reference re-derives its transform solely from its
then-current state, so it agrees with a single connect of the original reference to the
last destination; connect with identical inputs is idempotent; and in the default mzi
build the twice-connected final bottom bend equals a single fresh connect to the
combiner's port, so its placement is determined by the second connect alone. -/
theorem connect_rederive :
    (∀ (r : MRef) (k1 : ℕ) (d1 : Port) (s : MRef) (k2 : ℕ) (d2 : Port),
        connect r k1 d1 = .ok s → connect s k2 d2 = connect r k2 d2)
  ∧ (∀ (r : MRef) (k : ℕ) (d : Port) (s : MRef),
        connect r k d = .ok s → connect s k d = .ok s)
  ∧ (okRes mziDefault).map
        (fun res => connect (mkRef "blbmrb" Role.bendSeg bendC) 1
          (wpOr res.cout (e1Key mmi1x2C)))
      = (okRes mziDefault).map (fun res => Except.ok res.blbmrb) := by
  refine ⟨?_, ?_, ?_⟩
  · intro r k1 d1 s k2 d2 h
    obtain ⟨hcomp, hrole, hname⟩ := connect_fields h
    exact connect_indep s r k2 d2 hcomp hname hrole
  · intro r k d s h
    exact connect_idem h
  · with_unfolding_all decide

/-- C7 witness: re-derivation and idempotence at concrete references and ports. -/
theorem connect_rederive_witness :
    connect (connOk wRef 1 wDest1) 2 wDest2 = connect wRef 2 wDest2
  ∧ connect (connOk wRef 1 wDest1) 1 wDest1 = .ok (connOk wRef 1 wDest1) :=
  ⟨connect_rederive.1 wRef 1 wDest1 (connOk wRef 1 wDest1) 2 wDest2
      (by with_unfolding_all decide),
   connect_rederive.2.1 wRef 1 wDest1 (connOk wRef 1 wDest1)
      (by with_unfolding_all decide)⟩

/-- Structure of every successful assembly: the two arms' chains have exactly the roles
and segment lengths the source builds (lines 100 to 147), the recorded offsets are the
given ones, and the combiner resolved every splitter-derived key the assembly reads. -/
theorem mziAssemble_ok_spec
    {dL ly lx : ℚ} {cp1 cp2 : MComp} {ws : Bool} {lay : ℤ × ℤ} {dlc : ℚ} {res : MziResult}
    (h : mziAssemble dL ly lx cp1 cp2 ws lay dlc = .ok res) :
    segView res.topChain = [(.bendSeg, bendC.pathLen), (.verticalSeg, ly),
        (.bendSeg, bendC.pathLen), (.horizontalSeg, lx), (.bendSeg, bendC.pathLen),
        (.verticalSeg, l0rLength ly dlc), (.bendSeg, bendC.pathLen)]
  ∧ segView res.botChain = [(.bendSeg, bendC.pathLen), (.verticalSeg, ly),
        (.deltaSeg, dL / 2), (.bendSeg, bendC.pathLen), (.horizontalSeg, lx),
        (.bendSeg, bendC.pathLen), (.deltaSeg, dL / 2), (.verticalSeg, l0rLength ly dlc),
        (.bendSeg, bendC.pathLen)]
  ∧ res.dlc = dlc
  ∧ res.l0rLen = l0rLength ly dlc
  ∧ plook (e0Key cp1) cp2.ports ≠ none
  ∧ plook (e1Key cp1) cp2.ports ≠ none := by
  unfold mziAssemble at h
  simp only [exbind_ok, expure_eq, Except.ok.injEq] at h
  obtain ⟨d1, hd1, blt, hblt, d2, hd2, l0tl, hl0tl, d3, hd3, bltl, hbltl, d4, hd4,
    lxtop, hlxtop, d5, hd5, bltr, hbltr, d6, hd6, l0tr, hl0tr, d7, hd7, blmr, hblmr,
    d8, hd8, cout, hcout, f1, hf1, blb, hblb, f2, hf2, l0bl, hl0bl, f3, hf3, l1l, hl1l,
    f4, hf4, blbl, hblbl, f5, hf5, lxbot, hlxbot, f6, hf6, brbr, hbrbr, f7, hf7,
    l1r, hl1r, f8, hf8, l0br, hl0br, f9, hf9, blbmrb0, hblbmrb0, f10, hf10,
    blbmrb, hblbmrb, wp, hwp, p1, hp1, p2, hp2, hres⟩ := h
  obtain ⟨hbltC, hbltR, _⟩ := connect_fields hblt
  obtain ⟨hl0tlC, hl0tlR, _⟩ := connect_fields hl0tl
  obtain ⟨hbltlC, hbltlR, _⟩ := connect_fields hbltl
  obtain ⟨hlxtopC, hlxtopR, _⟩ := connect_fields hlxtop
  obtain ⟨hbltrC, hbltrR, _⟩ := connect_fields hbltr
  obtain ⟨hl0trC, hl0trR, _⟩ := connect_fields hl0tr
  obtain ⟨hblmrC, hblmrR, _⟩ := connect_fields hblmr
  obtain ⟨hcoutC, hcoutR, _⟩ := connect_fields hcout
  obtain ⟨hblbC, hblbR, _⟩ := connect_fields hblb
  obtain ⟨hl0blC, hl0blR, _⟩ := connect_fields hl0bl
  obtain ⟨hl1lC, hl1lR, _⟩ := connect_fields hl1l
  obtain ⟨hblblC, hblblR, _⟩ := connect_fields hblbl
  obtain ⟨hlxbotC, hlxbotR, _⟩ := connect_fields hlxbot
  obtain ⟨hbrbrC, hbrbrR, _⟩ := connect_fields hbrbr
  obtain ⟨hl1rC, hl1rR, _⟩ := connect_fields hl1r
  obtain ⟨hl0brC, hl0brR, _⟩ := connect_fields hl0br
  obtain ⟨hblbmrb0C, hblbmrb0R, _⟩ := connect_fields hblbmrb0
  obtain ⟨hblbmrbC, hblbmrbR, _⟩ := connect_fields hblbmrb
  subst hres
  refine ⟨?_, ?_, rfl, rfl, ?_, ?_⟩
  · simp only [segView, List.map_cons, List.map_nil, hbltC, hbltR, hl0tlC, hl0tlR,
      hbltlC, hbltlR, hlxtopC, hlxtopR, hbltrC, hbltrR, hl0trC, hl0trR, hblmrC, hblmrR,
      mkRef, straightC]
  · simp only [segView, List.map_cons, List.map_nil, hblbC, hblbR, hl0blC, hl0blR,
      hl1lC, hl1lR, hblblC, hblblR, hlxbotC, hlxbotR, hbrbrC, hbrbrR, hl1rC, hl1rR,
      hl0brC, hl0brR, hblbmrbC, hblbmrbR, hblbmrb0C, hblbmrb0R, mkRef, straightC]
  · exact connect_ok_look hcout
  · have h2 := wport_ok_look hf10
    rw [hcoutC] at h2
    exact h2

/-- Binding a ready value just applies the continuation. -/
theorem exok_bind {E A B : Type} (a : A) (f : A → Except E B) :
    (Except.ok a : Except E A) >>= f = f a := rfl

/-- Binding a failed computation propagates the failure. -/
theorem exerr_bind {E A B : Type} (x : E) (f : A → Except E B) :
    (Except.error x : Except E A) >>= f = .error x := rfl

/-- Everything a successful mzi build guarantees: the four offset-stage lookups resolved,
the recorded delta_length_combiner is the difference of the two vertical offsets, the
arm-balance check passed, the combiner-side straight length is as requested at source
line 100, both arms have exactly the transcribed segments, and the combiner resolved all
splitter-derived keys. -/
theorem mziModel_ok_spec
    {dL ly lx : ℚ} {cp1 cp2 : MComp} {ws : Bool} {lay : ℤ × ℤ} {res : MziResult}
    (h : mziModel dL ly lx cp1 cp2 ws lay = .ok res) :
    ∃ a b a2 b2, plook 2 cp1.ports = some a ∧ plook 2 cp2.ports = some b
      ∧ plook (e1Key cp1) cp1.ports = some a2 ∧ plook (e1Key cp1) cp2.ports = some b2
      ∧ res.dlc = |a2.y - a.y| - |b2.y - b.y|
      ∧ 0 < res.dlc + ly
      ∧ res.l0rLen = l0rLength ly res.dlc
      ∧ segView res.topChain = [(.bendSeg, bendC.pathLen), (.verticalSeg, ly),
          (.bendSeg, bendC.pathLen), (.horizontalSeg, lx), (.bendSeg, bendC.pathLen),
          (.verticalSeg, l0rLength ly res.dlc), (.bendSeg, bendC.pathLen)]
      ∧ segView res.botChain = [(.bendSeg, bendC.pathLen), (.verticalSeg, ly),
          (.deltaSeg, dL / 2), (.bendSeg, bendC.pathLen), (.horizontalSeg, lx),
          (.bendSeg, bendC.pathLen), (.deltaSeg, dL / 2),
          (.verticalSeg, l0rLength ly res.dlc), (.bendSeg, bendC.pathLen)]
      ∧ plook (e0Key cp1) cp2.ports ≠ none := by
  unfold mziModel at h
  simp only [exbind_ok, plookE_ok] at h
  obtain ⟨a, ha, b, hb, a2, ha2, b2, hb2, hif⟩ := h
  refine ⟨a, b, a2, b2, ha, hb, ha2, hb2, ?_⟩
  split at hif
  case isTrue hpos =>
    rw [exmap_ok] at hif
    obtain ⟨htop, hbot, hdlc, hlen, he0, _⟩ := mziAssemble_ok_spec hif
    refine ⟨hdlc, ?_, ?_, ?_, ?_, he0⟩
    · rw [hdlc]; exact hpos
    · rw [hdlc]; exact hlen
    · rw [hdlc]; exact htop
    · rw [hdlc]; exact hbot
  case isFalse hneg =>
    exact absurd hif (by simp)

/-- Chain length through the role and length view. -/
theorem chainSum_eq (l : List MRef) : chainSum l = ((segView l).map (fun sg => sg.2)).sum := by
  unfold chainSum segView
  rw [List.map_map]
  rfl

/-- C1: with the four chosen ports readable, the mzi build computes dl and dr as the
vertical offsets between the ports under keys 2 and len(cp1.ports) - 1 of the splitter
and of the combiner, sets delta_length_combiner = dl - dr, and fails with the
configuration-invariant error carrying that value and length_y exactly when
delta_length_combiner + length_y is not strictly positive. -/
theorem mzi_config_invariant_iff (dL ly lx : ℚ) (cp1 cp2 : MComp) (ws : Bool)
    (lay : ℤ × ℤ) (a b a2 b2 : Port)
    (h1 : plook 2 cp1.ports = some a) (h2 : plook 2 cp2.ports = some b)
    (h3 : plook (e1Key cp1) cp1.ports = some a2)
    (h4 : plook (e1Key cp1) cp2.ports = some b2) :
    mziModel dL ly lx cp1 cp2 ws lay
        = .error (.configError (|a2.y - a.y| - |b2.y - b.y|) ly)
      ↔ ¬ 0 < (|a2.y - a.y| - |b2.y - b.y|) + ly := by
  unfold mziModel
  simp only [plookE_ok.mpr h1, plookE_ok.mpr h2, plookE_ok.mpr h3, plookE_ok.mpr h4,
    exok_bind]
  constructor
  · intro hEq hpos
    rw [if_pos hpos] at hEq
    obtain ⟨x, _, hx⟩ := exmap_error.mp hEq
    exact BErr.noConfusion hx
  · intro hneg
    rw [if_neg hneg]

/-- C1 witness: the default pair has dl = dr, so with length_y = 0.1 the check passes;
an engineered pair with delta_length_combiner = -2 and length_y = 0.1 fails with the
configuration error. -/
theorem mzi_config_invariant_iff_witness :
    ¬ (mziModel 10 (1/10) (1/10) mmi1x2C mmi1x2C true (1, 0)
        = .error (.configError 0 (1/10)))
  ∧ mziModel 10 (1/10) (1/10) cpB1 cpB2 true (1, 0)
      = .error (.configError (-2) (1/10)) := by
  constructor
  · intro hEq
    have hif : mziModel 10 (1/10) (1/10) mmi1x2C mmi1x2C true (1, 0)
          = .error (.configError (|(5/8 : ℚ) - 5/8| - |(5/8 : ℚ) - 5/8|) (1/10))
        ↔ ¬ 0 < (|(5/8 : ℚ) - 5/8| - |(5/8 : ℚ) - 5/8|) + 1/10 :=
      mzi_config_invariant_iff 10 (1/10) (1/10) mmi1x2C mmi1x2C true (1, 0)
        { x := 11/2, y := 5/8, angle := 0, width := 1/2, layer := (1, 0) }
        { x := 11/2, y := 5/8, angle := 0, width := 1/2, layer := (1, 0) }
        { x := 11/2, y := 5/8, angle := 0, width := 1/2, layer := (1, 0) }
        { x := 11/2, y := 5/8, angle := 0, width := 1/2, layer := (1, 0) }
        (by with_unfolding_all decide) (by with_unfolding_all decide)
        (by with_unfolding_all decide) (by with_unfolding_all decide)
    have hz : |(5/8 : ℚ) - 5/8| - |(5/8 : ℚ) - 5/8| = 0 := by norm_num
    rw [hz] at hif
    exact hif.mp hEq (by norm_num)
  · have hif : mziModel 10 (1/10) (1/10) cpB1 cpB2 true (1, 0)
          = .error (.configError (|(1 : ℚ) - 1| - |(2 : ℚ) - 0|) (1/10))
        ↔ ¬ 0 < (|(1 : ℚ) - 1| - |(2 : ℚ) - 0|) + 1/10 :=
      mzi_config_invariant_iff 10 (1/10) (1/10) cpB1 cpB2 true (1, 0)
        { x := 5, y := 1, angle := 0, width := 1/2, layer := (1, 0) }
        { x := 5, y := 0, angle := 0, width := 1/2, layer := (1, 0) }
        { x := 5, y := 1, angle := 0, width := 1/2, layer := (1, 0) }
        { x := 5, y := 2, angle := 0, width := 1/2, layer := (1, 0) }
        (by with_unfolding_all decide) (by with_unfolding_all decide)
        (by with_unfolding_all decide) (by with_unfolding_all decide)
    have hz : |(1 : ℚ) - 1| - |(2 : ℚ) - 0| = -2 := by norm_num
    rw [hz] at hif
    exact hif.mpr (by norm_num)

/-- C2: in every assembled mzi the bottom arm carries exactly two delta straights, each
of length delta_length / 2, one before (index 2) and one after (index 6) the horizontal
run (index 4), the top arm carries none, and the two arms' total path lengths differ by
exactly delta_length. -/
theorem mzi_arm_imbalance (dL ly lx : ℚ) (cp1 cp2 : MComp) (ws : Bool) (lay : ℤ × ℤ)
    (res : MziResult) (h : mziModel dL ly lx cp1 cp2 ws lay = .ok res) :
    (segView res.topChain).filter (fun sg => decide (sg.1 = Role.deltaSeg)) = []
  ∧ (segView res.botChain).filter (fun sg => decide (sg.1 = Role.deltaSeg))
      = [(Role.deltaSeg, dL / 2), (Role.deltaSeg, dL / 2)]
  ∧ (segView res.botChain).get? 2 = some (Role.deltaSeg, dL / 2)
  ∧ (segView res.botChain).get? 4 = some (Role.horizontalSeg, lx)
  ∧ (segView res.botChain).get? 6 = some (Role.deltaSeg, dL / 2)
  ∧ chainSum res.botChain - chainSum res.topChain = dL := by
  obtain ⟨a, b, a2, b2, _, _, _, _, _, _, _, htop, hbot, _⟩ := mziModel_ok_spec h
  refine ⟨?_, ?_, ?_, ?_, ?_, ?_⟩
  · rw [htop]; rfl
  · rw [hbot]; rfl
  · rw [hbot]; rfl
  · rw [hbot]; rfl
  · rw [hbot]; rfl
  · rw [chainSum_eq, chainSum_eq, htop, hbot]
    simp only [List.map_cons, List.map_nil, List.sum_cons, List.sum_nil]
    ring

/-- C2 witness: the default build with delta_length = 10 realizes an exact difference of
10 between the two arms. -/
theorem mzi_arm_imbalance_witness :
    (segView mziDefaultRes.topChain).filter (fun sg => decide (sg.1 = Role.deltaSeg)) = []
  ∧ (segView mziDefaultRes.botChain).filter (fun sg => decide (sg.1 = Role.deltaSeg))
      = [(Role.deltaSeg, 10 / 2), (Role.deltaSeg, 10 / 2)]
  ∧ (segView mziDefaultRes.botChain).get? 2 = some (Role.deltaSeg, 10 / 2)
  ∧ (segView mziDefaultRes.botChain).get? 4 = some (Role.horizontalSeg, 1/10)
  ∧ (segView mziDefaultRes.botChain).get? 6 = some (Role.deltaSeg, 10 / 2)
  ∧ chainSum mziDefaultRes.botChain - chainSum mziDefaultRes.topChain = 10 :=
  mzi_arm_imbalance 10 (1/10) (1/10) mmi1x2C mmi1x2C true (1, 0) mziDefaultRes
    (by with_unfolding_all decide)

/-- C8 (amended): for a nonnegative length_y, whenever the arm-balance check
delta_length_combiner + length_y > 0 passes, the length the build requests for the
combiner-side vertical straight at source line 100, length_y + delta_length_combiner / 2,
is strictly positive.  This covers every build that reaches line 100 (the request follows
the assert immediately), whether or not the remaining assembly succeeds. -/
theorem mzi_l0r_positive (ly dlc : ℚ) (hly : 0 ≤ ly) (hpos : 0 < dlc + ly) :
    0 < l0rLength ly dlc := by
  unfold l0rLength
  linarith

/-- C8 witness: at the default build values (length_y = 0.1, delta_length_combiner = 0)
the requested combiner-side straight length is strictly positive. -/
theorem mzi_l0r_positive_witness : 0 < l0rLength (1/10) 0 :=
  mzi_l0r_positive (1/10) 0 (by norm_num) (by norm_num)

/-- C8 counterexample: with length_y = -1 a build passes the check (its recorded
delta_length_combiner is 2 and 2 + (-1) is positive) yet requests the combiner-side
straight with length 0, which is not strictly positive. -/
theorem mzi_l0r_nonpositive_cx :
    (okRes (mziModel 10 (-1) (1/10) cpA1 cpA2 true (1, 0))).map (fun r => (r.dlc, r.l0rLen))
      = some (2, 0)
  ∧ (0 : ℚ) < 2 + (-1)
  ∧ ¬ (0 : ℚ) < 0 :=
  ⟨by with_unfolding_all decide, by norm_num, by norm_num⟩

/-- C9 (amended): if the combiner lacks the splitter-derived key 2 or len(cp1.ports) - 1
the build fails with a key error; and every successful build requires the combiner's
ports to cover all three splitter-derived keys. -/
theorem mzi_key_coverage :
    (∀ (dL ly lx : ℚ) (cp1 cp2 : MComp) (ws : Bool) (lay : ℤ × ℤ),
        (plook 2 cp2.ports = none ∨ plook (e1Key cp1) cp2.ports = none) →
        ∃ who k, mziModel dL ly lx cp1 cp2 ws lay = .error (.err (.keyError who k)))
  ∧ (∀ (dL ly lx : ℚ) (cp1 cp2 : MComp) (ws : Bool) (lay : ℤ × ℤ) (res : MziResult),
        mziModel dL ly lx cp1 cp2 ws lay = .ok res →
        plook 2 cp2.ports ≠ none ∧ plook (e1Key cp1) cp2.ports ≠ none
          ∧ plook (e0Key cp1) cp2.ports ≠ none) := by
  constructor
  · intro dL ly lx cp1 cp2 ws lay hmiss
    unfold mziModel
    cases hA : plook 2 cp1.ports with
    | none =>
      refine ⟨ "cp1", 2, ?_⟩
      simp only [plookE_none hA, exerr_bind]
    | some a =>
      cases hB : plook 2 cp2.ports with
      | none =>
        refine ⟨ "cp2", 2, ?_⟩
        simp only [plookE_ok.mpr hA, exok_bind, plookE_none hB, exerr_bind]
      | some b =>
        cases hmiss with
        | inl hm => rw [hB] at hm; cases hm
        | inr hm =>
          cases hC : plook (e1Key cp1) cp1.ports with
          | none =>
            refine ⟨ "cp1", e1Key cp1, ?_⟩
            simp only [plookE_ok.mpr hA, exok_bind, plookE_ok.mpr hB,
              plookE_none hC, exerr_bind]
          | some a2 =>
            refine ⟨ "cp2", e1Key cp1, ?_⟩
            simp only [plookE_ok.mpr hA, exok_bind, plookE_ok.mpr hB,
              plookE_ok.mpr hC, plookE_none hm, exerr_bind]
  · intro dL ly lx cp1 cp2 ws lay res h
    obtain ⟨a, b, a2, b2, _, hb, _, hb2, _, _, _, _, _, he0⟩ := mziModel_ok_spec h
    refine ⟨by rw [hb]; exact fun hc => Option.noConfusion hc,
      by rw [hb2]; exact fun hc => Option.noConfusion hc, he0⟩

/-- C9 witness: a combiner with no ports at all makes the build fail with a key error,
and the successful default build covers all three keys. -/
theorem mzi_key_coverage_witness :
    (∃ who k, mziModel 10 (1/10) (1/10) mmi1x2C { ports := [], pathLen := 0 } true (1, 0)
        = .error (.err (.keyError who k)))
  ∧ (plook 2 mmi1x2C.ports ≠ none ∧ plook (e1Key mmi1x2C) mmi1x2C.ports ≠ none
      ∧ plook (e0Key mmi1x2C) mmi1x2C.ports ≠ none) :=
  ⟨mzi_key_coverage.1 10 (1/10) (1/10) mmi1x2C { ports := [], pathLen := 0 } true (1, 0)
      (Or.inl (by with_unfolding_all decide)),
   mzi_key_coverage.2 10 (1/10) (1/10) mmi1x2C mmi1x2C true (1, 0) mziDefaultRes
      (by with_unfolding_all decide)⟩

/-- C9 counterexample: a combiner lacking the splitter-derived key 4 whose offsets also
violate the arm-balance invariant makes the build fail with the configuration error,
not with a not-found or key error. -/
theorem mzi_missing_key_cx :
    plook (e0Key cpB1) cpB2.ports = none
  ∧ mziModel 10 (1/10) (1/10) cpB1 cpB2 true (1, 0)
      = .error (.configError (-2) (1/10))
  ∧ ∀ e, mziModel 10 (1/10) (1/10) cpB1 cpB2 true (1, 0) ≠ .error (.err e) := by
  refine ⟨by with_unfolding_all decide, by with_unfolding_all decide, ?_⟩
  intro e hEq
  have h2 : mziModel 10 (1/10) (1/10) cpB1 cpB2 true (1, 0)
      = .error (.configError (-2) (1/10)) := by with_unfolding_all decide
  rw [h2] at hEq
  exact BErr.noConfusion (Except.error.inj hEq)

/-- C3 (amended): the default mzi build exposes as input ports exactly the splitter
reference's world ports of orientation 180 degrees and as output ports exactly the
combiner reference's world ports of orientation 0 degrees; with the default 1 by 2
splitter these are exactly 1 input port and 1 output port (not 2 and 2). -/
theorem mzi_port_classification :
    (okRes mziDefault).map (fun r =>
        (r.ports.filter (fun np => decide (np.2.angle = 180))).map (fun np => np.2))
      = some ((worldPorts (mkRef "cin" Role.splitterSeg mmi1x2C)).filterMap
          (fun kp => if kp.2.angle = 180 then some kp.2 else none))
  ∧ (okRes mziDefault).map (fun r =>
        (r.ports.filter (fun np => decide (np.2.angle = 0))).map (fun np => np.2))
      = (okRes mziDefault).map (fun r => (worldPorts r.cout).filterMap
          (fun kp => if kp.2.angle = 0 then some kp.2 else none))
  ∧ (okRes mziDefault).map (fun r =>
        ((r.ports.filter (fun np => decide (np.2.angle = 180))).length,
          (r.ports.filter (fun np => decide (np.2.angle = 0))).length)) = some (1, 1) :=
  ⟨by with_unfolding_all decide, by with_unfolding_all decide,
   by with_unfolding_all decide⟩

/-- C3 counterexample: the default build does not expose 2 input ports; with the default
1 by 2 splitter it exposes exactly 1. -/
theorem mzi_port_count_cx :
    ¬ ((okRes mziDefault).map (fun r =>
        (r.ports.filter (fun np => decide (np.2.angle = 180))).length) = some 2) := by
  with_unfolding_all decide

/-- C6: with with_splitter = false and otherwise default parameters, the splitter
reference is not among the assembled component's references, and the component exposes
exactly 2 input ports (orientation 180 degrees) whose positions are those of the first
bottom bend's entry port and the first top bend's entry port. -/
theorem mzi_without_splitter :
    (okRes mziNoSplit).map (fun r => r.refNames.contains "cin") = some false
  ∧ (okRes mziNoSplit).map (fun r =>
        (r.ports.filter (fun np => decide (np.2.angle = 180))).length) = some 2
  ∧ (okRes mziNoSplit).map (fun r =>
        (r.ports.filter (fun np => decide (np.2.angle = 180))).map
          (fun np => (np.2.x, np.2.y)))
      = (okRes mziNoSplit).map (fun r =>
          [((wpOr r.blb 2).x, (wpOr r.blb 2).y), ((wpOr r.blt 1).x, (wpOr r.blt 1).y)]) :=
  ⟨by with_unfolding_all decide, by with_unfolding_all decide,
   by with_unfolding_all decide⟩
